import Mathlib

/-!
Verification development for the ig-automator answer pipeline.

The Python sources are embedded shallowly:
* `backend/document_parser.py` (chunk assembler) over character lists
  (Python `str` is modelled as `List Char`); the optional tiktoken encoder
  is absent in this model, so `_tokens_len` is the documented character
  fallback (`len(text)`), exactly as the source falls back when tiktoken
  is unavailable.
* `backend/benchmark_scorer.py` over `String`/`Rat` (Python floats are
  modelled as exact rationals; the wall clock read by
  `datetime.utcnow().isoformat()` is passed in as an explicit argument).
* `query_agent.py` helpers: the confidence scorer, the lexical-overlap
  measure (`** 0.5` on nonnegative operands is the real square root),
  the off-topic candidate filter, the relevance gate and the
  generated-text parsing step of `RAGAgent.query`.

Logging calls, the merged bounding-box visualisation metadata
(`_merge_bounding_boxes`, floating-point geometry used by no claim) and
the SHA-256 digest (replaced by an injective stand-in on its inputs; no
claim depends on the digest value) are omitted from the chunker model.
-/

set_option linter.unusedVariables false

/- ===================== character-list string helpers ===================== -/

/-- Python `"\n".join(parts)`: the buffer parts interleaved with newlines. -/
def joinNl : List (List Char) → List Char
  | [] => []
  | [p] => p
  | p :: ps => p ++ '\n' :: joinNl ps

/-- Python `str.strip()`: drop leading and trailing whitespace characters.
(Python strips the full Unicode whitespace set; the inputs used here are
covered by `Char.isWhitespace`.) -/
def trimChars (l : List Char) : List Char :=
  ((l.dropWhile Char.isWhitespace).reverse.dropWhile Char.isWhitespace).reverse

/-- Python `s[-n:]` for `n > 0`: the trailing `n` characters. -/
def takeRightChars (n : Nat) (l : List Char) : List Char := l.drop (l.length - n)

/-- Does `pat` start the list `l`? -/
def listStartsWith : List Char → List Char → Bool
  | [], _ => true
  | _ :: _, [] => false
  | a :: as, b :: bs => a == b && listStartsWith as bs

/-- Python `needle in haystack` — substring containment. -/
def strContains (haystack needle : String) : Bool :=
  haystack.toList.tails.any (fun t => listStartsWith needle.toList t)

/-- Python `sorted(set(xs))` over page numbers: insertion sort of the
deduplicated list. -/
def insertSorted (x : Int) : List Int → List Int
  | [] => [x]
  | y :: ys => if x ≤ y then x :: y :: ys else y :: insertSorted x ys

/-- Sort after removing duplicates, as `sorted(set(cur_pages))` does. -/
def sortedDedup (l : List Int) : List Int :=
  l.eraseDups.foldr insertSorted []

/- ===================== document_parser.py: data model ===================== -/

/-- `NormalizedElement` (document_parser.py).  `filename`, `filetype`,
`coordinates` and `metadata` are never read by `chunk_elements` and are
omitted. -/
structure NormalizedElement where
  element_id : String
  type : String
  text : List Char
  page_number : Option Int
  table_html : Option (List Char)
deriving DecidableEq, Repr

/-- `Chunk` (document_parser.py).  `source` and the merged `bounding_box`
(pure provenance / visualisation payloads) are omitted; `meta` holds only
`section_heading`, the single key the chunker writes. -/
structure Chunk where
  chunk_id : List Char
  text : List Char
  tokens : Nat
  from_elements : List String
  page_numbers : List Int
  section_heading : Option (List Char)
deriving DecidableEq, Repr

/-- `ChunkOptions` (document_parser.py).  `strategy` and `partition_kwargs`
are pass-through options for the external partitioner and never reach
`chunk_elements`. -/
structure ChunkOptions where
  max_tokens : Nat
  overlap_tokens : Int
  respect_headings : Bool
  keep_tables_intact : Bool
  combine_short_elements : Bool
  min_element_length : Nat
deriving DecidableEq, Repr

/-- `_tokens_len` with tiktoken unavailable: the character-length fallback. -/
def tokens_len (text : List Char) : Nat := text.length

/-- `_is_table_type`: `"Table" in str(type_name)`. -/
def is_table_type (type_name : String) : Bool := strContains type_name "Table"

/-- `_is_heading_type`: `"Title" in s or "Heading" in s`. -/
def is_heading_type (type_name : String) : Bool :=
  strContains type_name "Title" || strContains type_name "Heading"

/-- Python truthiness of `el.table_html` (`None` and `""` are falsy). -/
def hasTableHtml (el : NormalizedElement) : Bool :=
  match el.table_html with
  | some h => !h.isEmpty
  | none => false

/-- The wrapped markup of `_table_repr`. -/
def tableWrap (h : List Char) : List Char :=
  "[TABLE]\n".toList ++ h ++ "\n[/TABLE]".toList

/-- `_table_repr`: prefer the wrapped HTML; fall back to the plain text. -/
def table_repr (el : NormalizedElement) : List Char :=
  match el.table_html with
  | some h => if h.isEmpty then el.text else tableWrap h
  | none => el.text

/-- The `is_table` flag of `chunk_elements` line 453.  Python parses
`options.keep_tables_intact and bool(el.table_html) or _is_table_type(el.type)`
as `(keep and html) or is_table_type`. -/
def isTableFlag (opts : ChunkOptions) (el : NormalizedElement) : Bool :=
  (opts.keep_tables_intact && hasTableHtml el) || is_table_type el.type

/-- The representation selected for an element (lines 462-467): the wrapped
table markup when `is_table and el.table_html`, else the plain text; then
stripped. -/
def elementRepresentation (opts : ChunkOptions) (el : NormalizedElement) : List Char :=
  trimChars (if isTableFlag opts el && hasTableHtml el then table_repr el else el.text)

/- ===================== document_parser.py: _smart_units ===================== -/

/-- `re.split` with the pattern `(\n+|(?<=[.!?])\s+)` of `_smart_units`:
the text is cut at every newline run and at every whitespace run that
follows a sentence-ending punctuation mark; separators are kept in the
result (the regex group is captured).  `fuel` bounds the recursion; each
step consumes at least one character, so `text.length + 1` always
suffices. -/
def reSplitGo : Nat → Option Char → List Char → List Char → List (List Char)
  | 0, _, acc, rest => [acc.reverse ++ rest]
  | _ + 1, _, acc, [] => [acc.reverse]
  | fuel + 1, prev, acc, c :: rest =>
    if c = '\n' then
      let sep := c :: rest.takeWhile (· == '\n')
      acc.reverse :: sep :: reSplitGo fuel (some '\n') [] (rest.dropWhile (· == '\n'))
    else if c.isWhitespace && (prev == some '.' || prev == some '!' || prev == some '?') then
      let sep := c :: rest.takeWhile Char.isWhitespace
      acc.reverse :: sep :: reSplitGo fuel (some ' ') [] (rest.dropWhile Char.isWhitespace)
    else
      reSplitGo fuel (some c) (c :: acc) rest

/-- Python `p.endswith("\n")`. -/
def endsWithNl (p : List Char) : Bool :=
  match p.getLast? with
  | some c => c == '\n'
  | none => false

/-- `_smart_units`: split on sentence-ish endings and newlines, then glue
each separator onto the unit it terminates. -/
def smart_units (text : List Char) : List (List Char) :=
  let parts := reSplitGo (text.length + 1) none [] text
  let step := fun (acc : List (List Char) × List Char) (p : List Char) =>
    let buf := acc.2 ++ p
    if trimChars p = [] || endsWithNl p ||
        trimChars p = ['.'] || trimChars p = ['!'] || trimChars p = ['?'] then
      (acc.1 ++ [buf], ([] : List Char))
    else (acc.1, buf)
  let r := parts.foldl step ([], [])
  if r.2 = [] then r.1 else r.1 ++ [r.2]

/-- `_split_large_text`, character branch (tiktoken unavailable): pack the
units of `_smart_units` into pieces, cutting before any unit that would
push the running count past `max_len` (when the buffer is non-empty). -/
def split_large_text (text : List Char) (max_len : Nat) : List (List Char) :=
  let units := smart_units text
  let step := fun (acc : List (List Char) × List (List Char) × Nat) (u : List Char) =>
    let pieces := acc.1
    let buf := acc.2.1
    let cur := acc.2.2
    if max_len < cur + u.length ∧ buf ≠ [] then
      (pieces ++ [trimChars buf.flatten], [u], u.length)
    else (pieces, buf ++ [u], cur + u.length)
  let r := units.foldl step ([], [], 0)
  let pieces := if r.2.1 = [] then r.1 else r.1 ++ [trimChars r.2.1.flatten]
  pieces.filter (fun p => p ≠ [])

/- ===================== document_parser.py: chunk_elements ===================== -/

/-- The running state of `chunk_elements`: emitted chunks, the text buffer
`cur_text_parts`, `cur_ids`, `cur_pages` and the current `section_heading`.
Each emitted chunk carries a ghost tag recording whether it was emitted by
the flush inside the oversized-element split loop (lines 495-501); the tag
is projected away by `chunk_elements` itself. -/
structure ChunkState where
  chunks : List (Chunk × Bool)
  parts : List (List Char)
  ids : List String
  pages : List Int
  heading : Option (List Char)
deriving DecidableEq, Repr

/-- `current_len()`: the length of the newline-joined buffer. -/
def partsLen (parts : List (List Char)) : Nat := tokens_len (joinNl parts)

/-- Injective stand-in for `_hash_text(text, ",".join(cur_ids))`; no claim
depends on the digest value. -/
def hashStandIn (text : List Char) (ids : List String) : List Char :=
  text ++ (String.intercalate "," ids).toList

/-- Append an element representation to the running buffer (the repeated
`cur_text_parts.append / cur_ids.append / cur_pages.append` block). -/
def appendPart (s : ChunkState) (el : NormalizedElement) (rep : List Char) : ChunkState :=
  { s with parts := s.parts ++ [rep],
           ids := s.ids ++ [el.element_id],
           pages := s.pages ++ (match el.page_number with | some p => [p] | none => []) }

/-- `flush_chunk(force)` of `chunk_elements`, tagged with whether the call
site is the oversized-split loop.  Empty buffers are no-ops; a buffer that
strips to nothing is reset; otherwise a chunk is emitted and, unless the
flush is forced, the overlap is zero, or the chunk fits inside the overlap,
the next buffer is seeded with the trailing `overlap` characters (element
and page tracking is intentionally not carried over). -/
def flushChunk (opts : ChunkOptions) (splitTag : Bool) (force : Bool) (s : ChunkState) : ChunkState :=
  if s.parts.isEmpty then s
  else
    let text := trimChars (joinNl s.parts)
    if text.isEmpty then { s with parts := [], ids := [], pages := [] }
    else
      let tok_len := tokens_len text
      let overlap := opts.overlap_tokens.toNat
      let c : Chunk :=
        { chunk_id := hashStandIn text s.ids
          text := text
          tokens := tok_len
          from_elements := s.ids
          page_numbers := sortedDedup s.pages
          section_heading :=
            match s.heading with
            | some h => if h.isEmpty then none else some h
            | none => none }
      let s1 := { s with chunks := s.chunks ++ [(c, splitTag)] }
      if force || overlap == 0 || tok_len ≤ overlap then
        { s1 with parts := [], ids := [], pages := [] }
      else
        { s1 with parts := [takeRightChars overlap text], ids := [], pages := [] }

/-- Lines 456-459: start a new section on headings if requested (forced
flush, then record the stripped heading text — Python records `None` for an
empty `el.text`). -/
def headingStep (opts : ChunkOptions) (s : ChunkState) (el : NormalizedElement) : ChunkState :=
  if opts.respect_headings && is_heading_type el.type then
    { flushChunk opts false true s with
        heading := if el.text = [] then none else some (trimChars el.text) }
  else s

/-- Lines 472-488: combine short elements to reduce fragmentation.  The
running buffer takes the representation (space-prefixed when the buffer is
non-empty) if the check passes; otherwise the buffer is flushed first and
the bare representation starts the next buffer.  Either way the per-element
loop then continues (no table-terminal flush). -/
def combinePath (opts : ChunkOptions) (s : ChunkState) (el : NormalizedElement)
    (representation : List Char) : ChunkState :=
  let rep_with_space := if s.parts.isEmpty then representation else ' ' :: representation
  if partsLen s.parts + tokens_len rep_with_space ≤ opts.max_tokens then
    appendPart s el rep_with_space
  else
    appendPart (flushChunk opts false false s) el representation

/-- Lines 492-502: the element alone exceeds the window — flush the current
buffer, then emit one flushed chunk per piece of `_split_large_text`;
the loop then continues (no table-terminal flush). -/
def splitPath (opts : ChunkOptions) (s : ChunkState) (el : NormalizedElement)
    (representation : List Char) : ChunkState :=
  let s := flushChunk opts false false s
  (split_large_text representation opts.max_tokens).foldl
    (fun s piece => flushChunk opts true false (appendPart s el piece)) s

/-- Lines 504-521: normal accumulation into the running buffer, followed by
the table-terminal flush. -/
def normalPath (opts : ChunkOptions) (s : ChunkState) (el : NormalizedElement)
    (representation : List Char) : ChunkState :=
  let el_tokens := tokens_len representation
  let s :=
    if partsLen s.parts + el_tokens ≤ opts.max_tokens then appendPart s el representation
    else appendPart (flushChunk opts false false s) el representation
  -- a table is flushed immediately to keep it intact
  if isTableFlag opts el then flushChunk opts false false s else s

/-- The loop body of `chunk_elements` for one element (lines 452-521). -/
def chunkStep (opts : ChunkOptions) (s : ChunkState) (el : NormalizedElement) : ChunkState :=
  let s := headingStep opts s el
  let representation := elementRepresentation opts el
  if representation = [] then s
  else if opts.combine_short_elements && representation.length < opts.min_element_length then
    combinePath opts s el representation
  else if opts.max_tokens < tokens_len representation then
    splitPath opts s el representation
  else
    normalPath opts s el representation

/-- `chunk_elements` run with the ghost split tags retained. -/
def chunkRun (elements : List NormalizedElement) (opts : ChunkOptions) : ChunkState :=
  flushChunk opts false true
    (elements.foldl (chunkStep opts) ⟨[], [], [], [], none⟩)

/-- `chunk_elements(elements, options)`: the emitted chunks in order. -/
def chunk_elements (elements : List NormalizedElement) (opts : ChunkOptions) : List Chunk :=
  (chunkRun elements opts).chunks.map Prod.fst

/- ===================== chunker lemmas ===================== -/

theorem length_dropWhile_le (p : Char → Bool) (l : List Char) :
    (l.dropWhile p).length ≤ l.length := by
  induction l with
  | nil => simp
  | cons c cs ih =>
    rw [List.dropWhile_cons]
    by_cases h : p c = true
    · simp only [h, if_true, List.length_cons]
      exact le_trans ih (Nat.le_succ _)
    · rw [Bool.not_eq_true] at h
      simp [h]

theorem trimChars_length_le (l : List Char) : (trimChars l).length ≤ l.length := by
  unfold trimChars
  rw [List.length_reverse]
  calc ((l.dropWhile Char.isWhitespace).reverse.dropWhile Char.isWhitespace).length
      ≤ (l.dropWhile Char.isWhitespace).reverse.length := length_dropWhile_le _ _
    _ = (l.dropWhile Char.isWhitespace).length := List.length_reverse _
    _ ≤ l.length := length_dropWhile_le _ _

theorem takeRightChars_length_le (n : Nat) (l : List Char) :
    (takeRightChars n l).length ≤ n := by
  simp only [takeRightChars, List.length_drop]
  omega

theorem joinNl_append (ps : List (List Char)) (p : List Char) :
    joinNl (ps ++ [p]) = if ps = [] then p else joinNl ps ++ '\n' :: p := by
  induction ps with
  | nil => simp [joinNl]
  | cons q qs ih =>
    cases qs with
    | nil => simp [joinNl]
    | cons r rs =>
      have h : joinNl ((q :: r :: rs) ++ [p]) = q ++ '\n' :: joinNl ((r :: rs) ++ [p]) := rfl
      rw [h, ih]
      simp [joinNl]

theorem partsLen_nil : partsLen [] = 0 := rfl

theorem partsLen_single (p : List Char) : partsLen [p] = p.length := rfl

theorem partsLen_append (ps : List (List Char)) (p : List Char) :
    partsLen (ps ++ [p]) = if ps = [] then p.length else partsLen ps + 1 + p.length := by
  simp only [partsLen, tokens_len, joinNl_append]
  split
  · rfl
  · simp [List.length_append]
    omega

/-- The bound that every chunk outside the oversized-split loop satisfies. -/
def ChunkBound (B : Nat) (cs : List (Chunk × Bool)) : Prop :=
  ∀ p ∈ cs, p.2 = false → p.1.tokens ≤ B

theorem ChunkBound_nil (B : Nat) : ChunkBound B [] := by
  intro p hp
  cases hp

theorem flushChunk_partsLen (opts : ChunkOptions) (tag force : Bool) (s : ChunkState) :
    partsLen (flushChunk opts tag force s).parts ≤ opts.overlap_tokens.toNat := by
  unfold flushChunk
  dsimp only
  split_ifs with h1 h2 h3
  · rw [List.isEmpty_iff] at h1
    rw [h1]
    exact Nat.zero_le _
  · exact Nat.zero_le _
  · exact Nat.zero_le _
  · rw [partsLen_single]
    exact takeRightChars_length_le _ _

theorem ChunkBound_flush (B : Nat) (opts : ChunkOptions) (tag force : Bool) (s : ChunkState)
    (hp : tag = false → partsLen s.parts ≤ B) (hb : ChunkBound B s.chunks) :
    ChunkBound B (flushChunk opts tag force s).chunks := by
  have hc : ∀ cid fe pn sh,
      ChunkBound B (s.chunks ++
        [((⟨cid, trimChars (joinNl s.parts), tokens_len (trimChars (joinNl s.parts)),
            fe, pn, sh⟩ : Chunk), tag)]) := by
    intro cid fe pn sh q hq hfalse
    rcases List.mem_append.mp hq with hq | hq
    · exact hb q hq hfalse
    · rcases List.mem_singleton.mp hq with rfl
      have htag : tag = false := hfalse
      exact le_trans (trimChars_length_le _) (hp htag)
  unfold flushChunk
  dsimp only
  split_ifs with h1 h2 h3
  · exact hb
  · exact hb
  · exact hc _ _ _ _
  · exact hc _ _ _ _

theorem appendPart_parts (s : ChunkState) (el : NormalizedElement) (rep : List Char) :
    (appendPart s el rep).parts = s.parts ++ [rep] := rfl

theorem appendPart_chunks (s : ChunkState) (el : NormalizedElement) (rep : List Char) :
    (appendPart s el rep).chunks = s.chunks := rfl

/-- The bound `max_tokens + overlap + 1` satisfied outside the split loop. -/
def chunkB (opts : ChunkOptions) : Nat :=
  opts.max_tokens + opts.overlap_tokens.toNat + 1

theorem setHeading_parts (s : ChunkState) (h : Option (List Char)) :
    ({ s with heading := h } : ChunkState).parts = s.parts := rfl

theorem setHeading_chunks (s : ChunkState) (h : Option (List Char)) :
    ({ s with heading := h } : ChunkState).chunks = s.chunks := rfl

theorem overlap_le_chunkB (opts : ChunkOptions) :
    opts.overlap_tokens.toNat ≤ chunkB opts := by
  unfold chunkB
  omega

theorem headingStep_inv (opts : ChunkOptions) (s : ChunkState) (el : NormalizedElement)
    (h1 : partsLen s.parts ≤ chunkB opts) (h2 : ChunkBound (chunkB opts) s.chunks) :
    partsLen (headingStep opts s el).parts ≤ chunkB opts ∧
      ChunkBound (chunkB opts) (headingStep opts s el).chunks := by
  unfold headingStep
  split_ifs with h h3
  · constructor
    · show partsLen (flushChunk opts false true s).parts ≤ chunkB opts
      exact le_trans (flushChunk_partsLen _ _ _ _) (overlap_le_chunkB _)
    · show ChunkBound (chunkB opts) (flushChunk opts false true s).chunks
      exact ChunkBound_flush _ _ _ _ _ (fun _ => h1) h2
  · constructor
    · show partsLen (flushChunk opts false true s).parts ≤ chunkB opts
      exact le_trans (flushChunk_partsLen _ _ _ _) (overlap_le_chunkB _)
    · show ChunkBound (chunkB opts) (flushChunk opts false true s).chunks
      exact ChunkBound_flush _ _ _ _ _ (fun _ => h1) h2
  · exact ⟨h1, h2⟩

theorem appendPart_partsLen (s : ChunkState) (el : NormalizedElement) (rep : List Char) :
    partsLen (appendPart s el rep).parts =
      if s.parts = [] then rep.length else partsLen s.parts + 1 + rep.length := by
  rw [appendPart_parts, partsLen_append]

theorem appendPart_inv_fit (opts : ChunkOptions) (s : ChunkState) (el : NormalizedElement)
    (rep : List Char) (hfit : partsLen s.parts + rep.length ≤ opts.max_tokens)
    (h2 : ChunkBound (chunkB opts) s.chunks) :
    partsLen (appendPart s el rep).parts ≤ chunkB opts ∧
      ChunkBound (chunkB opts) (appendPart s el rep).chunks := by
  rw [appendPart_partsLen, appendPart_chunks]
  refine ⟨?_, h2⟩
  unfold chunkB
  split_ifs <;> omega

theorem appendPart_inv_flush (opts : ChunkOptions) (s : ChunkState) (el : NormalizedElement)
    (rep : List Char) (hrle : rep.length ≤ opts.max_tokens)
    (h1 : partsLen s.parts ≤ chunkB opts) (h2 : ChunkBound (chunkB opts) s.chunks) :
    partsLen (appendPart (flushChunk opts false false s) el rep).parts ≤ chunkB opts ∧
      ChunkBound (chunkB opts) (appendPart (flushChunk opts false false s) el rep).chunks := by
  have hflush := flushChunk_partsLen opts false false s
  rw [appendPart_partsLen, appendPart_chunks]
  refine ⟨?_, ChunkBound_flush _ _ _ _ _ (fun _ => h1) h2⟩
  unfold chunkB
  split_ifs <;> omega

theorem combinePath_inv (opts : ChunkOptions) (s : ChunkState) (el : NormalizedElement)
    (representation : List Char)
    (hrep : representation.length < opts.min_element_length)
    (hmin : opts.min_element_length ≤ opts.max_tokens + 1)
    (h1 : partsLen s.parts ≤ chunkB opts) (h2 : ChunkBound (chunkB opts) s.chunks) :
    partsLen (combinePath opts s el representation).parts ≤ chunkB opts ∧
      ChunkBound (chunkB opts) (combinePath opts s el representation).chunks := by
  have hrle : representation.length ≤ opts.max_tokens := by omega
  unfold combinePath
  dsimp only
  rcases eq_or_ne s.parts [] with hE | hE
  · have hrw : (if s.parts.isEmpty then representation else ' ' :: representation)
        = representation := by simp [hE]
    rw [hrw]
    split_ifs with hfit
    · exact appendPart_inv_fit opts s el representation hfit h2
    · exact appendPart_inv_flush opts s el representation hrle h1 h2
  · have hrw : (if s.parts.isEmpty then representation else ' ' :: representation)
        = ' ' :: representation := by simp [List.isEmpty_iff, hE]
    rw [hrw]
    split_ifs with hfit
    · exact appendPart_inv_fit opts s el (' ' :: representation) hfit h2
    · exact appendPart_inv_flush opts s el representation hrle h1 h2

theorem splitFold_inv (opts : ChunkOptions) (el : NormalizedElement)
    (pieces : List (List Char)) :
    ∀ s : ChunkState, partsLen s.parts ≤ opts.overlap_tokens.toNat →
      ChunkBound (chunkB opts) s.chunks →
      partsLen (pieces.foldl
          (fun s piece => flushChunk opts true false (appendPart s el piece)) s).parts ≤
        opts.overlap_tokens.toNat ∧
      ChunkBound (chunkB opts) (pieces.foldl
          (fun s piece => flushChunk opts true false (appendPart s el piece)) s).chunks := by
  induction pieces with
  | nil => intro s hp hb; exact ⟨hp, hb⟩
  | cons piece rest ih =>
    intro s hp hb
    rw [List.foldl_cons]
    apply ih
    · exact flushChunk_partsLen _ _ _ _
    · rw [← appendPart_chunks s el piece] at hb
      exact ChunkBound_flush _ _ _ _ _ (fun hc => nomatch hc) hb

theorem splitPath_inv (opts : ChunkOptions) (s : ChunkState) (el : NormalizedElement)
    (representation : List Char)
    (h1 : partsLen s.parts ≤ chunkB opts) (h2 : ChunkBound (chunkB opts) s.chunks) :
    partsLen (splitPath opts s el representation).parts ≤ chunkB opts ∧
      ChunkBound (chunkB opts) (splitPath opts s el representation).chunks := by
  unfold splitPath
  have h := splitFold_inv opts el (split_large_text representation opts.max_tokens)
    (flushChunk opts false false s) (flushChunk_partsLen _ _ _ _)
    (ChunkBound_flush _ _ _ _ _ (fun _ => h1) h2)
  exact ⟨le_trans h.1 (overlap_le_chunkB _), h.2⟩

theorem normalPath_inv (opts : ChunkOptions) (s : ChunkState) (el : NormalizedElement)
    (representation : List Char)
    (hle : tokens_len representation ≤ opts.max_tokens)
    (h1 : partsLen s.parts ≤ chunkB opts) (h2 : ChunkBound (chunkB opts) s.chunks) :
    partsLen (normalPath opts s el representation).parts ≤ chunkB opts ∧
      ChunkBound (chunkB opts) (normalPath opts s el representation).chunks := by
  unfold normalPath
  dsimp only
  split_ifs with htbl hfit hfit
  · have h := appendPart_inv_fit opts s el representation hfit h2
    exact ⟨le_trans (flushChunk_partsLen _ _ _ _) (overlap_le_chunkB _),
      ChunkBound_flush _ _ _ _ _ (fun _ => h.1) h.2⟩
  · have h := appendPart_inv_flush opts s el representation hle h1 h2
    exact ⟨le_trans (flushChunk_partsLen _ _ _ _) (overlap_le_chunkB _),
      ChunkBound_flush _ _ _ _ _ (fun _ => h.1) h.2⟩
  · exact appendPart_inv_fit opts s el representation hfit h2
  · exact appendPart_inv_flush opts s el representation hle h1 h2

theorem chunkStep_inv (opts : ChunkOptions) (el : NormalizedElement) (s : ChunkState)
    (hmin : opts.combine_short_elements = true →
      opts.min_element_length ≤ opts.max_tokens + 1)
    (h1 : partsLen s.parts ≤ chunkB opts) (h2 : ChunkBound (chunkB opts) s.chunks) :
    partsLen (chunkStep opts s el).parts ≤ chunkB opts ∧
      ChunkBound (chunkB opts) (chunkStep opts s el).chunks := by
  unfold chunkStep
  dsimp only
  have hh := headingStep_inv opts s el h1 h2
  split_ifs with hempty hcomb hbig
  · exact hh
  · have hand := hcomb
    rw [Bool.and_eq_true] at hand
    refine combinePath_inv opts _ el _ ?_ (hmin hand.1) hh.1 hh.2
    exact of_decide_eq_true hand.2
  · exact splitPath_inv opts _ el _ hh.1 hh.2
  · exact normalPath_inv opts _ el _ (by omega) hh.1 hh.2

theorem foldl_chunkStep_inv (opts : ChunkOptions)
    (hmin : opts.combine_short_elements = true →
      opts.min_element_length ≤ opts.max_tokens + 1) :
    ∀ (elements : List NormalizedElement) (s : ChunkState),
      partsLen s.parts ≤ chunkB opts → ChunkBound (chunkB opts) s.chunks →
      partsLen (elements.foldl (chunkStep opts) s).parts ≤ chunkB opts ∧
        ChunkBound (chunkB opts) (elements.foldl (chunkStep opts) s).chunks := by
  intro elements
  induction elements with
  | nil => intro s h1 h2; exact ⟨h1, h2⟩
  | cons el rest ih =>
    intro s h1 h2
    rw [List.foldl_cons]
    have h := chunkStep_inv opts el s hmin h1 h2
    exact ih _ h.1 h.2

/-- C1 (amended): every chunk that `chunk_elements` emits outside the
oversized-single-element split path has
`tokens ≤ max_tokens + max(0, overlap_tokens) + 1`, provided
`min_element_length ≤ max_tokens + 1` whenever `combine_short_elements` is
on.  The original `tokens ≤ max_tokens` fails (see the counterexample):
the budget check `current_len() + _tokens_len(rep) <= max_len` does not
count the newline separator that `"\n".join` inserts on every append (one
character of slack), and a flush that seeds the next buffer with the
trailing `overlap` characters prepends that carry-over without re-checking
the budget before the next representation is appended (up to `overlap`
further characters). -/
theorem c1_chunk_tokens_bound (elements : List NormalizedElement) (opts : ChunkOptions)
    (hmin : opts.combine_short_elements = true →
      opts.min_element_length ≤ opts.max_tokens + 1) :
    ∀ p ∈ (chunkRun elements opts).chunks, p.2 = false →
      p.1.tokens ≤ opts.max_tokens + opts.overlap_tokens.toNat + 1 := by
  have h := foldl_chunkStep_inv opts hmin elements ⟨[], [], [], [], none⟩
    (by rw [partsLen_nil]; exact Nat.zero_le _) (ChunkBound_nil _)
  have h2 := ChunkBound_flush (chunkB opts) opts false true _ (fun _ => h.1) h.2
  intro p hp hf
  exact h2 p hp hf

/-- Input of the C1 counterexample: two ten-character body elements. -/
def c1Elems : List NormalizedElement :=
  [⟨"id1", "NarrativeText", "aaaaaaaaaa".toList, none, none⟩,
   ⟨"id2", "NarrativeText", "bbbbbbbbbb".toList, none, none⟩]

/-- Options of the C1 counterexample: budget 10 tokens, overlap 9. -/
def c1Opts : ChunkOptions := ⟨10, 9, false, true, false, 25⟩

/-- C1 counterexample: with `max_tokens = 10` and `overlap_tokens = 9`, the
second emitted chunk is the 9-character overlap carry-over plus a newline
plus the 10-character second element — 20 tokens, twice the budget — and it
is not produced by the oversized-single-element split path (its ghost tag
is `false`), refuting the claimed bound `tokens ≤ max_tokens`. -/
theorem c1_counterexample :
    c1Opts.max_tokens = 10 ∧
    ∃ p ∈ (chunkRun c1Elems c1Opts).chunks, p.2 = false ∧ 10 < p.1.tokens := by
  decide

/-- Input of the C1 witness: a heading plus two short combinable elements. -/
def c1wElems : List NormalizedElement :=
  [⟨"w0", "Title", "Intro".toList, some 1, none⟩,
   ⟨"w1", "NarrativeText", "abc".toList, some 1, none⟩,
   ⟨"w2", "NarrativeText", "de".toList, some 2, none⟩]

/-- Options of the C1 witness. -/
def c1wOpts : ChunkOptions := ⟨5, 0, true, true, true, 4⟩

/-- Witness for `c1_chunk_tokens_bound` at a concrete input. -/
theorem c1_chunk_tokens_bound_witness :
    (c1wOpts.combine_short_elements = true →
      c1wOpts.min_element_length ≤ c1wOpts.max_tokens + 1) ∧
    ∀ p ∈ (chunkRun c1wElems c1wOpts).chunks, p.2 = false →
      p.1.tokens ≤ c1wOpts.max_tokens + c1wOpts.overlap_tokens.toNat + 1 :=
  ⟨by decide, c1_chunk_tokens_bound c1wElems c1wOpts (by decide)⟩

/-- Input of the C2 evaluation: a table whose wrapped representation
(`[TABLE]\naaaa\nbbbb\n[/TABLE]`, 26 characters) exceeds the budget. -/
def c2Elem : NormalizedElement :=
  ⟨"tbl", "Table", "tabletext".toList, some 1, some "aaaa\nbbbb".toList⟩

/-- Options of the C2 evaluation: keep_tables_intact on, budget 10. -/
def c2Opts : ChunkOptions := ⟨10, 0, true, true, false, 25⟩

/-- C2 (code-bug evidence): although `keep_tables_intact = true`, a table
element whose wrapped representation alone exceeds `max_tokens` is handed
to `_split_large_text` (lines 490-502 have no table exemption) and its
rendered representation is split across three emitted chunks, contradicting
both the claim and the docstring of `chunk_elements` ("Tables are never
split (if keep_tables_intact)"). -/
theorem c2_table_split_eval :
    c2Opts.keep_tables_intact = true ∧
    (chunk_elements [c2Elem] c2Opts).map Chunk.text =
      ["[TABLE]".toList, "aaaa\nbbbb".toList, "[/TABLE]".toList] := by
  exact ⟨rfl, by decide⟩

/-- Input of the C8 counterexample: a Table-type element carrying markup. -/
def c8Elem : NormalizedElement := ⟨"tbl", "Table", "t".toList, none, some "h".toList⟩

/-- Options of the C8 counterexample: `keep_tables_intact = false`. -/
def c8Opts : ChunkOptions := ⟨900, 0, true, false, false, 25⟩

/-- C8 counterexample: with `keep_tables_intact = false` the produced chunk
still contains the wrapped `[TABLE]` markup, because line 453 parses as
`(keep_tables_intact and bool(el.table_html)) or _is_table_type(el.type)`,
so a Table-type element takes the markup branch regardless of the flag. -/
theorem c8_counterexample :
    c8Opts.keep_tables_intact = false ∧
    (chunk_elements [c8Elem] c8Opts).map Chunk.text = ["[TABLE]\nh\n[/TABLE]".toList] ∧
    ∃ c ∈ chunk_elements [c8Elem] c8Opts, listStartsWith "[TABLE]".toList c.text = true := by
  refine ⟨rfl, by decide, ?_⟩
  decide

/-- C8 (amended): an element is rendered as the wrapped table markup iff it
carries non-empty `table_html` and (`keep_tables_intact` is true or its
type is a table type); in particular the markup can appear in chunks even
when `keep_tables_intact` is false, whenever the element type is a table
type. -/
theorem c8_table_markup_condition (opts : ChunkOptions) (el : NormalizedElement) :
    elementRepresentation opts el =
      trimChars (if hasTableHtml el && (opts.keep_tables_intact || is_table_type el.type)
          then table_repr el else el.text) := by
  unfold elementRepresentation isTableFlag
  cases h1 : hasTableHtml el <;> cases h2 : opts.keep_tables_intact <;>
    cases h3 : is_table_type el.type <;> simp [h1, h2, h3]

/- ===================== benchmark_scorer.py: data model ===================== -/

/-- Python `str.lower()` (ASCII; the scorer inputs modelled here need no
Unicode case folding). -/
def toLowerStr (s : String) : String := (s.toList.map Char.toLower).asString

/-- `policy_expect.math_check` contents. -/
structure MathCheck where
  expected : Option Rat
deriving DecidableEq, Repr

/-- `policy_expect` of a benchmark test record.  A missing or falsy (empty)
`math_check` is `none`, matching the `if math_check:` truthiness test. -/
structure PolicyExpect where
  flags_present : List String
  flags_absent : List String
  must_answer : Option String
  quotes_min : Int
  quotes_max : Option Int
  math_check : Option MathCheck
deriving DecidableEq, Repr

/-- A benchmark test record (JSONL line). -/
structure TestCase where
  id : String
  question : String
  must_include : List String
  must_exclude : List String
  must_cite : List String
  policy_expect : PolicyExpect
deriving DecidableEq, Repr

/-- One produced quote; the scorer only reads `quote.get("source", "")`. -/
structure Quote where
  quote : String
  source : String
deriving DecidableEq, Repr

/-- One `used_documents` entry: a bare filename string, or an object whose
source is `doc.get("source", "") or doc.get("filename", "")`. -/
inductive UsedDoc where
  | str (s : String)
  | obj (source filename : String)
deriving DecidableEq, Repr

/-- The structured part of a RAG response consumed by the scorer. -/
structure RespJson where
  quotes : List Quote
  used_documents : List UsedDoc
  policy_flags : List String
deriving DecidableEq, Repr

/-- A RAG response as handed to `score_response`. -/
structure RAGResponse where
  answer : String
  json : RespJson
deriving DecidableEq, Repr

/-- Python `round(x, 2)` on the reported rates.  Python rounds floats
half-to-even; `round` here rounds half up — they differ only at exact
half-ulp ties, on which no claim depends. -/
def round2 (x : Rat) : Rat := (round (x * 100) : Int) / 100

/-- Python `round(x, 1)` (same remark as `round2`). -/
def round1 (x : Rat) : Rat := (round (x * 10) : Int) / 10

/-- Result of `_score_content`. -/
structure ContentScore where
  points : Nat
  max_points : Nat
  included : List String
  excluded : List String
  inclusion_rate : Rat
  feedback : List String
deriving DecidableEq, Repr

/-- Result of `_score_citations`; the no-requirement early return carries
only points and feedback, so the detailed keys are optional. -/
structure CitationScore where
  points : Nat
  max_points : Nat
  cited : Option (List String)
  cited_required : Option (List String)
  missing : Option (List String)
  citation_rate : Option Rat
  feedback : List String
deriving DecidableEq, Repr

/-- Result of `_score_quotes`.  `expected_max` is rendered as a string
because Python stores either the integer or the literal `"unlimited"`. -/
structure QuoteScore where
  points : Nat
  max_points : Nat
  count : Nat
  expected_min : Int
  expected_max : String
  feedback : List String
deriving DecidableEq, Repr

/-- Result of `_score_policy`. -/
structure PolicyScore where
  points : Nat
  max_points : Nat
  flags : List String
  violations : List String
  feedback : List String
deriving DecidableEq, Repr

/-- Result of `_score_math`. -/
structure MathScore where
  points : Nat
  max_points : Nat
  expected : Option Rat
  found : List Rat
  feedback : List String
deriving DecidableEq, Repr

/-- The per-test scoring record returned by `score_response`; the
`scores` sub-dictionary is flattened into the five category fields. -/
structure ScoreResult where
  test_id : String
  question : String
  answer : String
  timestamp : String
  content : ContentScore
  citations : CitationScore
  quotes : QuoteScore
  policy : PolicyScore
  math : Option MathScore
  total_score : Nat
  max_score : Nat
  passed : Bool
  feedback : List String
deriving DecidableEq, Repr

/- ===================== benchmark_scorer.py: category scorers ===================== -/

/-- `_score_content` (2 points max): inclusion rate over required terms,
zeroed by any prohibited term; all matches case-insensitive substring
checks. -/
def score_content (answer : String) (must_include must_exclude : List String) : ContentScore :=
  let answer_lower := toLowerStr answer
  let included := must_include.filter (fun t => strContains answer_lower (toLowerStr t))
  let excluded := must_exclude.filter (fun t => strContains answer_lower (toLowerStr t))
  let inclusion_rate : Rat :=
    if must_include = [] then 1 else (included.length : Rat) / (must_include.length : Rat)
  let missing := must_include.filter (fun t => !included.contains t)
  let pf : Nat × List String :=
    if excluded ≠ [] then
      (0, ["❌ Contains prohibited terms: " ++ String.intercalate ", " excluded])
    else if 1 ≤ inclusion_rate then
      (2, ["✅ All required terms present (" ++ toString included.length ++ "/" ++
        toString must_include.length ++ ")"])
    else if (1 : Rat) / 2 ≤ inclusion_rate then
      (1, ["⚠️  Partial match (" ++ toString included.length ++ "/" ++
        toString must_include.length ++ "). Missing: " ++ String.intercalate ", " missing])
    else
      (0, ["❌ Poor match (" ++ toString included.length ++ "/" ++
        toString must_include.length ++ "). Missing: " ++ String.intercalate ", " missing])
  { points := pf.1, max_points := 2, included := included, excluded := excluded,
    inclusion_rate := round2 inclusion_rate, feedback := pf.2 }

/-- Insertion into the collected cited-filename set.  Python uses a `set`;
within one interpreter run identical inputs iterate identically, and the
model fixes insertion order (first occurrence kept), which no claim
distinguishes. -/
def citedInsert (s : String) (acc : List String) : List String :=
  if acc.contains s then acc else acc ++ [s]

/-- `_score_citations` (2 points max). -/
def score_citations (quotes : List Quote) (used_docs : List UsedDoc)
    (must_cite : List String) : CitationScore :=
  if must_cite = [] then
    { points := 2, max_points := 2, cited := none, cited_required := none, missing := none,
      citation_rate := none, feedback := ["✅ No citations required"] }
  else
    let cited1 := quotes.foldl
      (fun acc q => if q.source ≠ "" then citedInsert q.source acc else acc) []
    let cited_files := used_docs.foldl
      (fun acc d =>
        let source := match d with
          | .obj s f => if s ≠ "" then s else f
          | .str s => s
        if source ≠ "" then citedInsert source acc else acc) cited1
    let cited_required := must_cite.filter (fun f => cited_files.any (fun c => strContains c f))
    let missing := must_cite.filter (fun f => !cited_required.contains f)
    let citation_rate : Rat := (cited_required.length : Rat) / (must_cite.length : Rat)
    let pf : Nat × List String :=
      if 1 ≤ citation_rate then
        (2, ["✅ All required documents cited (" ++ toString cited_required.length ++ "/" ++
          toString must_cite.length ++ ")"])
      else if (1 : Rat) / 2 ≤ citation_rate then
        (1, ["⚠️  Partial citations (" ++ toString cited_required.length ++ "/" ++
          toString must_cite.length ++ "). Missing: " ++ String.intercalate ", " missing])
      else
        (0, ["❌ Poor citations (" ++ toString cited_required.length ++ "/" ++
          toString must_cite.length ++ "). Missing: " ++ String.intercalate ", " missing])
    { points := pf.1, max_points := 2, cited := some cited_files,
      cited_required := some cited_required, missing := some missing,
      citation_rate := some (round2 citation_rate), feedback := pf.2 }

/-- `_score_quotes` (1 point max): the produced quote count must fall in
the inclusive `[quotes_min, quotes_max]` range (`quotes_max = none` means
unbounded). -/
def score_quotes (quotes : List Quote) (pe : PolicyExpect) : QuoteScore :=
  let quotes_min := pe.quotes_min
  let quotes_max := pe.quotes_max
  let quote_count : Int := quotes.length
  let min_satisfied : Bool := quotes_min ≤ quote_count
  let max_satisfied : Bool := match quotes_max with
    | none => true
    | some m => quote_count ≤ m
  let pf : Nat × List String :=
    if min_satisfied && max_satisfied then
      (1,
        if 0 < quotes_min ∧ quotes_max ≠ none then
          ["✅ Appropriate quote count: " ++ toString quote_count ++ " (expected " ++
            toString quotes_min ++ "-" ++ toString (quotes_max.getD 0) ++ ")"]
        else if 0 < quotes_min then
          ["✅ Appropriate quote count: " ++ toString quote_count ++ " (minimum " ++
            toString quotes_min ++ ")"]
        else
          ["✅ Quote count acceptable: " ++ toString quote_count])
    else
      (0,
        if quote_count < quotes_min then
          ["❌ Too few quotes: " ++ toString quote_count ++ " (minimum " ++
            toString quotes_min ++ ")"]
        else if quotes_max ≠ none then
          ["❌ Too many quotes: " ++ toString quote_count ++ " (maximum " ++
            toString (quotes_max.getD 0) ++ ")"]
        else [])
  { points := pf.1, max_points := 1, count := quotes.length, expected_min := quotes_min,
    expected_max := match quotes_max with | some m => toString m | none => "unlimited",
    feedback := pf.2 }

/-- `_score_policy` (1 point max): required-present flags, required-absent
flags, and the optional case-insensitive answer substring (Python leaves
`must_answer` itself unlowered when testing against the lowered answer). -/
def score_policy (policy_flags : List String) (answer : String) (pe : PolicyExpect) : PolicyScore :=
  let violations :=
    (pe.flags_present.filter (fun f => !policy_flags.contains f)).map
      (fun f => "Missing expected flag: " ++ f) ++
    (pe.flags_absent.filter (fun f => policy_flags.contains f)).map
      (fun f => "Unexpected flag present: " ++ f) ++
    (match pe.must_answer with
      | some m =>
        if m ≠ "" ∧ ¬ strContains (toLowerStr answer) m = true then
          ["Answer should contain: " ++ m]
        else []
      | none => [])
  let hasReq : Bool := !pe.flags_present.isEmpty || !pe.flags_absent.isEmpty ||
    (match pe.must_answer with | some m => !(m == "") | none => false)
  let pf : Nat × List String :=
    if violations = [] then
      (1,
        if hasReq then
          ["✅ Policy behavior correct (flags: " ++
            (if policy_flags = [] then "none" else String.intercalate ", " policy_flags) ++
            ")"]
        else ["✅ No policy requirements"])
    else (0, violations.map (fun v => "❌ " ++ v))
  { points := pf.1, max_points := 1, flags := policy_flags, violations := violations,
    feedback := pf.2 }

/- ===================== benchmark_scorer.py: _score_math ===================== -/

/-- The matches of the regex `[\d,]+\.?\d*` in `_score_math`:
maximal runs of digits/commas, each optionally extended by a dot and a
digit run; scanned left to right.  `fuel` bounds the recursion; every step
consumes at least one character. -/
def numTokenGo : Nat → List Char → List (List Char)
  | 0, _ => []
  | _ + 1, [] => []
  | fuel + 1, c :: rest =>
    if c.isDigit || c == ',' then
      let run1 := c :: rest.takeWhile (fun x => x.isDigit || x == ',')
      let rest1 := rest.dropWhile (fun x => x.isDigit || x == ',')
      match rest1 with
      | '.' :: rest2 =>
        (run1 ++ '.' :: rest2.takeWhile Char.isDigit) ::
          numTokenGo fuel (rest2.dropWhile Char.isDigit)
      | _ => run1 :: numTokenGo fuel rest1
    else numTokenGo fuel rest

/-- Decimal value of a digit run. -/
def digitsToNat (l : List Char) : Nat :=
  l.foldl (fun n c => n * 10 + (c.toNat - '0'.toNat)) 0

/-- Python `float(token.replace(",", ""))` for the regex tokens above:
strip commas, then parse `digits [ "." digits ]`; an empty remainder or a
bare dot raises `ValueError` (modelled as `none`, which the source filters
out). -/
def parseNumToken (t : List Char) : Option Rat :=
  let s := t.filter (fun c => !(c == ','))
  let intpart := s.takeWhile Char.isDigit
  match s.drop intpart.length with
  | [] => if intpart.isEmpty then none else some (digitsToNat intpart)
  | '.' :: frac =>
    if frac.all Char.isDigit then
      if intpart.isEmpty && frac.isEmpty then none
      else some ((digitsToNat intpart : Rat) +
        (digitsToNat frac : Rat) / ((10 : Rat) ^ frac.length))
    else none
  | _ => none

/-- `re.findall` plus safe float parsing of `_score_math`. -/
def findNumbers (answer : String) : List Rat :=
  (numTokenGo (answer.toList.length + 1) answer.toList).filterMap parseNumToken

/-- Display stand-in for Python float formatting inside feedback strings
(deterministic; the exact textual rendering is not claimed anywhere). -/
def ratStr (q : Rat) : String := toString q

/-- Python rendering of `expected`, which may be `None`. -/
def optRatStr : Option Rat → String
  | some q => ratStr q
  | none => "None"

/-- `_score_math` (1 point max): award the point iff the expected value is
among the numbers extracted from the answer. -/
def score_math (answer : String) (mc : MathCheck) : MathScore :=
  let expected := mc.expected
  let numbers := findNumbers answer
  let hit := match expected with
    | some e => numbers.contains e
    | none => false
  if hit then
    { points := 1, max_points := 1, expected := expected, found := numbers,
      feedback := ["✅ Correct calculation: " ++ optRatStr expected] }
  else
    { points := 0, max_points := 1, expected := expected, found := numbers,
      feedback := ["❌ Expected " ++ optRatStr expected ++ ", found: [" ++
        String.intercalate ", " (numbers.map ratStr) ++ "]"] }

/- ===================== benchmark_scorer.py: score_response / score_suite ===================== -/

/-- `BenchmarkScorer.score_response`.  The wall-clock reading
`datetime.utcnow().isoformat()` is the explicit `now` argument. -/
def score_response (test : TestCase) (response : RAGResponse) (now : String) : ScoreResult :=
  let answer_text := response.answer
  let content := score_content answer_text test.must_include test.must_exclude
  let citations := score_citations response.json.quotes response.json.used_documents
    test.must_cite
  let quote_score := score_quotes response.json.quotes test.policy_expect
  let policy := score_policy response.json.policy_flags answer_text test.policy_expect
  let math := test.policy_expect.math_check.map (score_math answer_text)
  let total := content.points + citations.points + quote_score.points + policy.points +
    (match math with | some m => m.points | none => 0)
  { test_id := test.id
    question := test.question
    answer := answer_text
    timestamp := now
    content := content
    citations := citations
    quotes := quote_score
    policy := policy
    math := math
    total_score := total
    max_score := 7
    passed := 5 ≤ total
    feedback := content.feedback ++ citations.feedback ++ quote_score.feedback ++
      policy.feedback ++ (match math with | some m => m.feedback | none => []) }

/-- `_get_grade`. -/
def get_grade (score : Rat) : String :=
  if 90 ≤ score then "A"
  else if 80 ≤ score then "B"
  else if 70 ≤ score then "C"
  else if 60 ≤ score then "D"
  else "F"

/-- The suite `summary` block of `score_suite`. -/
structure SuiteSummary where
  total_tests : Nat
  passed : Nat
  failed : Nat
  pass_rate : Rat
  total_score : Nat
  total_max : Nat
  overall_score : Rat
  grade : String
deriving DecidableEq, Repr

/-- The full report of `score_suite`. -/
structure SuiteReport where
  summary : SuiteSummary
  results : List ScoreResult
  timestamp : String
deriving DecidableEq, Repr

/-- `BenchmarkScorer.score_suite`: iterate over `zip(tests, responses)`
accumulating scores and maxima. -/
def score_suite (tests : List TestCase) (responses : List RAGResponse)
    (now : String) : SuiteReport :=
  let results := (tests.zip responses).map (fun p => score_response p.1 p.2 now)
  let total_score := (results.map (fun r => r.total_score)).sum
  let total_max := (results.map (fun r => r.max_score)).sum
  let passed_count := (results.filter (fun r => r.passed)).length
  let pass_rate : Rat :=
    if tests = [] then 0 else ((passed_count : Rat) / (tests.length : Rat)) * 100
  let overall_score : Rat :=
    if total_max = 0 then 0 else ((total_score : Rat) / (total_max : Rat)) * 100
  { summary :=
      { total_tests := tests.length
        passed := passed_count
        failed := tests.length - passed_count
        pass_rate := round1 pass_rate
        total_score := total_score
        total_max := total_max
        overall_score := round1 overall_score
        grade := get_grade overall_score }
    results := results
    timestamp := now }

/- ===================== claims C3 and C5 ===================== -/

/-- The timestamp-erased projection of a `ScoreResult`. -/
def eraseTimestamp (r : ScoreResult) : ScoreResult := { r with timestamp := "" }

/-- C3 (amended): `score_response` is deterministic in every field except
`timestamp`; for identical `(test, response)` inputs, two invocations can
differ only in the recorded wall-clock reading. -/
theorem c3_score_deterministic_besides_timestamp (test : TestCase) (response : RAGResponse)
    (n1 n2 : String) :
    eraseTimestamp (score_response test response n1) =
      eraseTimestamp (score_response test response n2) := rfl

/-- Concrete test record for the C3 and C5 counterexamples (no math check,
no requirements). -/
def cexTest : TestCase := ⟨"t1", "q", [], [], [], ⟨[], [], none, 0, none, none⟩⟩

/-- Concrete response for the C3 and C5 counterexamples. -/
def cexResp : RAGResponse := ⟨"ans", ⟨[], [], []⟩⟩

/-- C3 counterexample: two calls on identical `(test, response)` values at
different wall-clock instants return different `ScoreResult` values — the
result embeds `datetime.utcnow().isoformat()`, so not every field of the
returned record is a function of the two inputs. -/
theorem c3_counterexample :
    score_response cexTest cexResp "2024-01-01T00:00:00" ≠
      score_response cexTest cexResp "2024-01-01T00:00:01" := by
  decide

/-- C5 counterexample: a test record specifying no math check is still
scored with `max_score = 7`, not the claimed adjusted maximum 6 —
`score_response` hard-codes `"max_score": 7` and never adjusts it. -/
theorem c5_counterexample :
    cexTest.policy_expect.math_check = none ∧
    (score_response cexTest cexResp "TS").max_score = 7 ∧
    ¬ (score_response cexTest cexResp "TS").max_score = 6 := by
  exact ⟨rfl, rfl, by decide⟩

/-- C5 (amended): the per-test maximum is always 7, whether or not a math
check is specified, and the suite summary `total_max` is 7 times the number
of scored (test, response) pairs — `zip` truncates to the shorter list. -/
theorem c5_max_score_always_seven :
    (∀ (t : TestCase) (r : RAGResponse) (now : String),
      (score_response t r now).max_score = 7) ∧
    ∀ (tests : List TestCase) (responses : List RAGResponse) (now : String),
      (score_suite tests responses now).summary.total_max =
        7 * min tests.length responses.length := by
  have hm : ∀ (t : TestCase) (r : RAGResponse) (now : String),
      (score_response t r now).max_score = 7 := fun _ _ _ => rfl
  refine ⟨hm, ?_⟩
  intro tests responses now
  have hsum : ∀ l : List (TestCase × RAGResponse),
      ((l.map (fun p => score_response p.1 p.2 now)).map (fun r => r.max_score)).sum =
        7 * l.length := by
    intro l
    induction l with
    | nil => rfl
    | cons p ps ih =>
      simp only [List.map_cons, List.sum_cons, ih, hm, List.length_cons]
      omega
  show (((tests.zip responses).map (fun p => score_response p.1 p.2 now)).map
    (fun r => r.max_score)).sum = 7 * min tests.length responses.length
  rw [hsum, List.length_zip]

/- ===================== query_agent.py: calculate_confidence_score ===================== -/

/-- The result of `calculate_confidence_score`: the rounded score, the
level band, and the rounded component breakdown. -/
structure ConfidenceResult where
  score : Rat
  level : String
  lexical : Rat
  semantic : Rat
  entity_match : Rat
  citations : Rat
  doc_coverage : Rat
deriving DecidableEq, Repr

/-- Python `round(x, 3)` (half-up on rationals; Python rounds floats
half-to-even — the difference arises only at exact half-ulp ties, on which
no claim depends). -/
def round3 (x : Rat) : Rat := (round (x * 1000) : Int) / 1000

/-- `calculate_confidence_score` (query_agent.py lines 103-157), float
arithmetic modelled exactly over ℚ.  Weights: lexical 0.25, semantic 0.35,
entity 0.20, citations 0.10, doc coverage 0.10. -/
def calculate_confidence_score (lexical_score : Rat) (distance_scores : List Rat)
    (entity_match : Bool) (citation_count : Int) (doc_count : Int) : ConfidenceResult :=
  let similarity_score : Rat :=
    if distance_scores ≠ [] then
      max 0 (1 - (distance_scores.sum / (distance_scores.length : Rat)) / 2)
    else 0
  let entity_score : Rat := if entity_match then 1 else 0
  let citation_score : Rat := min 1 ((citation_count : Rat) / 3)
  let doc_coverage_score : Rat := min 1 ((doc_count : Rat) / 5)
  let confidence :=
    (25 : Rat) / 100 * lexical_score + (35 : Rat) / 100 * similarity_score +
    (20 : Rat) / 100 * entity_score + (10 : Rat) / 100 * citation_score +
    (10 : Rat) / 100 * doc_coverage_score
  { score := round3 confidence
    level :=
      if (75 : Rat) / 100 ≤ confidence then "high"
      else if (50 : Rat) / 100 ≤ confidence then "medium"
      else "low"
    lexical := round3 lexical_score
    semantic := round3 similarity_score
    entity_match := entity_score
    citations := round3 citation_score
    doc_coverage := round3 doc_coverage_score }

/-- C6 counterexample: `calculate_confidence_score` performs no clamping of
its inputs, so a lexical score of 10 (with no distances, no entity, no
citations, no documents) yields confidence 0.25 * 10 = 2.5 > 1, refuting
"returns a score within [0,1] for any input combination"; a lexical score
of -10 symmetrically yields -2.5 < 0. -/
theorem c6_counterexample :
    (calculate_confidence_score 10 [] false 0 0).score = 5 / 2 ∧
    ¬ (calculate_confidence_score 10 [] false 0 0).score ≤ 1 ∧
    (calculate_confidence_score (-10) [] false 0 0).score = -(5 / 2) := by
  have e1 : (calculate_confidence_score 10 [] false 0 0).score = 5 / 2 := by
    unfold calculate_confidence_score round3
    norm_num
  have hneg : (round ((-2500 : Rat)) : Int) = -2500 := by
    have hc : ((-2500 : Int) : Rat) = (-2500 : Rat) := by norm_num
    rw [← hc, round_intCast]
  have e2 : (calculate_confidence_score (-10) [] false 0 0).score = -(5 / 2) := by
    unfold calculate_confidence_score round3
    norm_num
    rw [hneg]
    norm_num
  refine ⟨e1, by rw [e1]; norm_num, e2⟩

theorem round_monotone {x y : Rat} (h : x ≤ y) : (round x : Int) ≤ round y := by
  rw [round_eq, round_eq]
  exact Int.floor_le_floor (by linarith)

theorem round3_bounds {x : Rat} (h0 : 0 ≤ x) (h1 : x ≤ 1) :
    0 ≤ round3 x ∧ round3 x ≤ 1 := by
  unfold round3
  constructor
  · have : (round (0 : Rat) : Int) ≤ round (x * 1000) := by
      apply round_monotone
      positivity
    rw [round_zero] at this
    have h2 : (0 : Rat) ≤ (round (x * 1000) : Int) := by exact_mod_cast this
    positivity
  · have : (round (x * 1000) : Int) ≤ round ((1000 : Rat)) := by
      apply round_monotone
      linarith
    have h1000 : (round ((1000 : Rat)) : Int) = 1000 := by
      norm_num [round_eq]
    rw [h1000] at this
    have h2 : ((round (x * 1000) : Int) : Rat) ≤ 1000 := by exact_mod_cast this
    linarith

/-- C6 (amended): when the lexical score lies in [0,1], every distance is
nonnegative, and the citation and document counts are nonnegative, the
returned score lies in [0,1] (the weights sum to 0.25+0.35+0.20+0.10+0.10
= 1 and each weighted term is bounded by its weight).  Unbounded inputs
violate the claimed range — see the counterexample. -/
theorem c6_confidence_bounds (lexical_score : Rat) (distance_scores : List Rat)
    (entity_match : Bool) (citation_count doc_count : Int)
    (hl0 : 0 ≤ lexical_score) (hl1 : lexical_score ≤ 1)
    (hd : ∀ d ∈ distance_scores, 0 ≤ d)
    (hc : 0 ≤ citation_count) (hdoc : 0 ≤ doc_count) :
    0 ≤ (calculate_confidence_score lexical_score distance_scores entity_match
        citation_count doc_count).score ∧
      (calculate_confidence_score lexical_score distance_scores entity_match
        citation_count doc_count).score ≤ 1 := by
  unfold calculate_confidence_score
  dsimp only
  set sim : Rat :=
    if distance_scores ≠ [] then
      max 0 (1 - (distance_scores.sum / (distance_scores.length : Rat)) / 2)
    else 0 with hsim
  have hsim0 : 0 ≤ sim := by
    rw [hsim]
    split_ifs
    · exact le_max_left _ _
    · exact le_refl 0
  have hsim1 : sim ≤ 1 := by
    rw [hsim]
    split_ifs with hne
    · have hlen : 0 < (distance_scores.length : Rat) := by
        have : distance_scores.length ≠ 0 := by
          intro hc0
          exact hne (List.length_eq_zero.mp hc0)
        positivity
      have hsum : 0 ≤ distance_scores.sum := List.sum_nonneg hd
      have havg : 0 ≤ distance_scores.sum / (distance_scores.length : Rat) :=
        div_nonneg hsum (le_of_lt hlen)
      apply max_le
      · norm_num
      · linarith
    · norm_num
  have hent0 : (0 : Rat) ≤ if entity_match then 1 else 0 := by split_ifs <;> norm_num
  have hent1 : (if entity_match then (1 : Rat) else 0) ≤ 1 := by split_ifs <;> norm_num
  have hcit0 : (0 : Rat) ≤ min 1 ((citation_count : Rat) / 3) := by
    apply le_min
    · norm_num
    · have : (0 : Rat) ≤ (citation_count : Rat) := by exact_mod_cast hc
      positivity
  have hcit1 : min (1 : Rat) ((citation_count : Rat) / 3) ≤ 1 := min_le_left _ _
  have hdoc0 : (0 : Rat) ≤ min 1 ((doc_count : Rat) / 5) := by
    apply le_min
    · norm_num
    · have : (0 : Rat) ≤ (doc_count : Rat) := by exact_mod_cast hdoc
      positivity
  have hdoc1 : min (1 : Rat) ((doc_count : Rat) / 5) ≤ 1 := min_le_left _ _
  apply round3_bounds
  · positivity
  · nlinarith [hsim0, hsim1, hent0, hent1, hcit0, hcit1, hdoc0, hdoc1, hl0, hl1]

/-- Witness for `c6_confidence_bounds` at a concrete input. -/
theorem c6_confidence_bounds_witness :
    (0 ≤ (1 : Rat) / 2 ∧ (1 : Rat) / 2 ≤ 1 ∧ (∀ d ∈ [(1 : Rat)], 0 ≤ d) ∧
      (0 : Int) ≤ 2 ∧ (0 : Int) ≤ 3) ∧
    (0 ≤ (calculate_confidence_score ((1 : Rat) / 2) [(1 : Rat)] true 2 3).score ∧
      (calculate_confidence_score ((1 : Rat) / 2) [(1 : Rat)] true 2 3).score ≤ 1) :=
  ⟨⟨by norm_num, by norm_num, by intro d hd; simp at hd; simp [hd], by norm_num, by norm_num⟩,
    c6_confidence_bounds ((1 : Rat) / 2) [(1 : Rat)] true 2 3 (by norm_num) (by norm_num)
      (by intro d hd; simp at hd; simp [hd]) (by norm_num) (by norm_num)⟩

/- ===================== query_agent.py: lexical_overlap_score ===================== -/

/-- Character class of the regex `[a-z0-9]+` (applied after lowering). -/
def isTokenChar (c : Char) : Bool := ('a' ≤ c && c ≤ 'z') || ('0' ≤ c && c ≤ '9')

/-- `re.findall(r"[a-z0-9]+", s)`: the maximal alphanumeric runs, in
order.  `fuel` bounds the recursion; each step consumes a character. -/
def tokenRunsGo : Nat → List Char → List (List Char)
  | 0, _ => []
  | _ + 1, [] => []
  | fuel + 1, c :: rest =>
    if isTokenChar c then
      (c :: rest.takeWhile isTokenChar) :: tokenRunsGo fuel (rest.dropWhile isTokenChar)
    else tokenRunsGo fuel rest

/-- `set(re.findall(r"[a-z0-9]+", s.lower()))`. -/
def tokenSet (s : String) : Finset String :=
  ((tokenRunsGo (s.toList.length + 1) (s.toList.map Char.toLower)).map List.asString).toFinset

/-- `lexical_overlap_score` (query_agent.py lines 66-73): zero when either
token set is empty, else the intersection size divided by the geometric
mean of the set sizes (`x ** 0.5` on the nonnegative operands is `√x`). -/
noncomputable def lexical_overlap_score (query text : String) : ℝ :=
  let q := tokenSet query
  let t := tokenSet text
  if q = ∅ ∨ t = ∅ then 0
  else ((q ∩ t).card : ℝ) / (Real.sqrt ((q.card : ℝ)) * Real.sqrt ((t.card : ℝ)))

/-- C10: `lexical_overlap_score` is total and bounded — it always lies in
[0,1], and it is exactly 0 whenever either alphanumeric token set is empty
(the early return that protects the geometric-mean division from a zero
denominator). -/
theorem c10_lexical_overlap_bounds (query text : String) :
    0 ≤ lexical_overlap_score query text ∧
    lexical_overlap_score query text ≤ 1 ∧
    ((tokenSet query = ∅ ∨ tokenSet text = ∅) → lexical_overlap_score query text = 0) := by
  unfold lexical_overlap_score
  dsimp only
  split_ifs with h
  · exact ⟨le_refl 0, by norm_num, fun _ => rfl⟩
  · push_neg at h
    have hq : (tokenSet query) ≠ ∅ := h.1
    have ht : (tokenSet text) ≠ ∅ := h.2
    have hqc : 0 < (tokenSet query).card :=
      Finset.card_pos.mpr (Finset.nonempty_iff_ne_empty.mpr hq)
    have htc : 0 < (tokenSet text).card :=
      Finset.card_pos.mpr (Finset.nonempty_iff_ne_empty.mpr ht)
    have hqcr : (0 : ℝ) < ((tokenSet query).card : ℝ) := by exact_mod_cast hqc
    have htcr : (0 : ℝ) < ((tokenSet text).card : ℝ) := by exact_mod_cast htc
    have hden : 0 < Real.sqrt ((tokenSet query).card : ℝ) * Real.sqrt ((tokenSet text).card : ℝ) := by
      apply mul_pos <;> rw [Real.sqrt_pos] <;> assumption
    refine ⟨by positivity, ?_, fun habs => absurd habs (by push_neg; exact ⟨hq, ht⟩)⟩
    rw [div_le_one hden]
    have h1 : (tokenSet query ∩ tokenSet text).card ≤ (tokenSet query).card :=
      Finset.card_le_card Finset.inter_subset_left
    have h2 : (tokenSet query ∩ tokenSet text).card ≤ (tokenSet text).card :=
      Finset.card_le_card Finset.inter_subset_right
    have h1r : ((tokenSet query ∩ tokenSet text).card : ℝ) ≤ ((tokenSet query).card : ℝ) := by
      exact_mod_cast h1
    have h2r : ((tokenSet query ∩ tokenSet text).card : ℝ) ≤ ((tokenSet text).card : ℝ) := by
      exact_mod_cast h2
    have hinter : (0 : ℝ) ≤ ((tokenSet query ∩ tokenSet text).card : ℝ) := by positivity
    calc ((tokenSet query ∩ tokenSet text).card : ℝ)
        ≤ Real.sqrt (((tokenSet query).card : ℝ) * ((tokenSet text).card : ℝ)) := by
          rw [Real.le_sqrt hinter (by positivity)]
          nlinarith
      _ = Real.sqrt ((tokenSet query).card : ℝ) * Real.sqrt ((tokenSet text).card : ℝ) :=
          Real.sqrt_mul (le_of_lt hqcr) _

/- ===================== query_agent.py: relevance gate ===================== -/

/-- A retrieved document as the gate sees it: `metadata["source"]` and
`page_content`. -/
structure RetrievedDoc where
  source : String
  content : String
deriving DecidableEq, Repr

/-- The hard-coded alias table of `_low_relevance` (lines 599-605):
sequential `if`s, so a later family overwrites an earlier match. -/
def entityTokens (ql : String) : List String :=
  let t : List String := []
  let t := if strContains ql "client c" || strContains ql "clientc" || strContains ql "client-c"
    then ["client c", "clientc", "client-c"] else t
  let t := if strContains ql "client x" || strContains ql "clientx" || strContains ql "client-x"
    then ["client x", "clientx", "client-x"] else t
  let t := if strContains ql "client b" || strContains ql "clientb" || strContains ql "client-b"
    then ["client b", "clientb", "client-b"] else t
  t

/-- The entity override of `_low_relevance` (lines 607-612): some alias
token of the lowered question occurs in the lowered source name or body of
one of the top five reranked documents. -/
def entityOverrideHit (question : String) (docs : List RetrievedDoc) : Bool :=
  let toks := entityTokens (toLowerStr question)
  !toks.isEmpty && (docs.take 5).any (fun d =>
    toks.any (fun tok =>
      strContains (toLowerStr d.source) tok || strContains (toLowerStr d.content) tok))

/-- `RAGAgent._low_relevance` (lines 587-625).  The sequential
early-return chain is rendered as a conjunction: the gate reports low
relevance iff the candidate list is empty, or else the entity override does
not fire AND the top lexical overlap is below the 0.12 threshold AND the
fresh distance search neither fails (`.error`, the permissive
`except: return False` path) nor returns any distance within
`min_distance`.  The external `similarity_search_with_score` outcome is the
explicit `search` argument; the comparison with the real-valued overlap
forces a `Prop`-valued gate. -/
def is_low_relevance (question : String) (reranked_docs : List RetrievedDoc)
    (search : Except Unit (List (RetrievedDoc × Rat))) (min_distance : Rat) : Prop :=
  match reranked_docs with
  | [] => True
  | top :: _ =>
    entityOverrideHit question reranked_docs = false ∧
    lexical_overlap_score question top.content < 12 / 100 ∧
    (match search with
     | .error _ => False
     | .ok hits => ∀ h ∈ hits, min_distance < h.2)

/-- C7: when the gate reaches its distance-check step (non-empty
candidates, no entity override, top lexical overlap below 0.12) and the
similarity-search capability fails, `_low_relevance` returns False — the
permissive fallback — rather than reporting low relevance or propagating
the error. -/
theorem c7_gate_permissive_on_search_failure (question : String) (top : RetrievedDoc)
    (rest : List RetrievedDoc) (min_distance : Rat)
    (hov : entityOverrideHit question (top :: rest) = false)
    (hlex : lexical_overlap_score question top.content < 12 / 100) :
    ¬ is_low_relevance question (top :: rest) (Except.error ()) min_distance := by
  intro h
  exact h.2.2

/-- Document for the C7 witness. -/
def c7Doc : RetrievedDoc := ⟨"doc.pdf", "beta"⟩

/-- Witness for `c7_gate_permissive_on_search_failure` at a concrete
input: the question "alpha" shares no token with the document body "beta",
so the overlap is 0 < 0.12, and no entity alias occurs. -/
theorem c7_gate_permissive_witness :
    (entityOverrideHit "alpha" [c7Doc] = false ∧
      lexical_overlap_score "alpha" c7Doc.content < 12 / 100) ∧
    ¬ is_low_relevance "alpha" [c7Doc] (Except.error ()) 1 := by
  have hov : entityOverrideHit "alpha" [c7Doc] = false := by decide
  have hlex : lexical_overlap_score "alpha" c7Doc.content < 12 / 100 := by
    have hcard : ((tokenSet "alpha" ∩ tokenSet "beta").card : ℝ) = 0 := by
      norm_num
      decide
    have h0 : lexical_overlap_score "alpha" "beta" = 0 := by
      unfold lexical_overlap_score
      dsimp only
      split_ifs with h
      · rfl
      · rw [hcard, zero_div]
    show lexical_overlap_score "alpha" "beta" < 12 / 100
    rw [h0]
    norm_num
  exact ⟨⟨hov, hlex⟩, c7_gate_permissive_on_search_failure "alpha" c7Doc [] 1 hov hlex⟩

/- ===================== query_agent.py: _filter_offtopic_docs ===================== -/

/-- `RAGAgent._filter_offtopic_docs` (lines 527-536): drop candidates whose
body matches a blocked-content pattern; if everything would be dropped,
keep the original list.  The compiled `blocked_regex` pattern set is the
`isBlocked` predicate parameter (its contents are configuration data). -/
def filter_offtopic_docs (isBlocked : String → Bool) (docs : List RetrievedDoc) :
    List RetrievedDoc :=
  let out := docs.filter (fun d => !isBlocked d.content)
  if out.isEmpty then docs else out

/-- C9: the off-topic filter never empties a non-empty candidate set: it
returns the blocked-free sublist when that sublist is non-empty, returns
the original list unchanged when every candidate is blocked, and in either
case returns a non-empty list. -/
theorem c9_filter_never_empties (isBlocked : String → Bool) (docs : List RetrievedDoc)
    (hne : docs ≠ []) :
    (docs.filter (fun d => !isBlocked d.content) ≠ [] →
      filter_offtopic_docs isBlocked docs = docs.filter (fun d => !isBlocked d.content)) ∧
    ((∀ d ∈ docs, isBlocked d.content = true) → filter_offtopic_docs isBlocked docs = docs) ∧
    filter_offtopic_docs isBlocked docs ≠ [] := by
  unfold filter_offtopic_docs
  dsimp only
  refine ⟨?_, ?_, ?_⟩
  · intro h
    rw [if_neg (by simpa [List.isEmpty_iff] using h)]
  · intro h
    have hfil : docs.filter (fun d => !isBlocked d.content) = [] := by
      rw [List.filter_eq_nil_iff]
      intro d hd
      simp [h d hd]
    simp [hfil]
  · split_ifs with h
    · exact hne
    · intro hc
      rw [List.isEmpty_iff] at h
      exact h hc

/-- Witness for `c9_filter_never_empties` at a concrete input where the
filter would remove everything and the original list is kept. -/
theorem c9_filter_never_empties_witness :
    (([⟨"a.pdf", "x"⟩] : List RetrievedDoc) ≠ []) ∧
    (([⟨"a.pdf", "x"⟩] : List RetrievedDoc).filter
        (fun d => !(fun s => s == "x") d.content) ≠ [] →
      filter_offtopic_docs (fun s => s == "x") [⟨"a.pdf", "x"⟩] =
        ([⟨"a.pdf", "x"⟩] : List RetrievedDoc).filter
          (fun d => !(fun s => s == "x") d.content)) ∧
    ((∀ d ∈ ([⟨"a.pdf", "x"⟩] : List RetrievedDoc), (fun s => s == "x") d.content = true) →
      filter_offtopic_docs (fun s => s == "x") [⟨"a.pdf", "x"⟩] = [⟨"a.pdf", "x"⟩]) ∧
    filter_offtopic_docs (fun s => s == "x") [⟨"a.pdf", "x"⟩] ≠ [] :=
  ⟨by simp, c9_filter_never_empties (fun s => s == "x") [⟨"a.pdf", "x"⟩] (by simp)⟩

/- ===================== query_agent.py: answer parsing step ===================== -/

/-- A decoded JSON value (the result of `json.loads`). -/
inductive Json where
  | null
  | bool (b : Bool)
  | num (q : Rat)
  | str (s : List Char)
  | arr (xs : List Json)
  | obj (fields : List (List Char × Json))

/-- JSON insignificant whitespace. -/
def jsonWs (c : Char) : Bool := c == ' ' || c == '\t' || c == '\n' || c == '\r'

/-- Skip insignificant whitespace. -/
def skipWs (l : List Char) : List Char := l.dropWhile jsonWs

/-- Single-character string escapes. -/
def escChar : Char → Option Char
  | '"' => some '"'
  | '\\' => some '\\'
  | '/' => some '/'
  | 'b' => some (Char.ofNat 8)
  | 'f' => some (Char.ofNat 12)
  | 'n' => some '\n'
  | 'r' => some '\r'
  | 't' => some '\t'
  | _ => none

/-- Hexadecimal digit value. -/
def hexVal (c : Char) : Option Nat :=
  if '0' ≤ c ∧ c ≤ '9' then some (c.toNat - '0'.toNat)
  else if 'a' ≤ c ∧ c ≤ 'f' then some (c.toNat - 'a'.toNat + 10)
  else if 'A' ≤ c ∧ c ≤ 'F' then some (c.toNat - 'A'.toNat + 10)
  else none

/-- JSON string body after the opening quote: characters and escapes up to
the closing quote (unescaped control characters are rejected; `\uXXXX`
decodes one code unit — surrogate-pair recombination is not modelled, no
input in this file uses it). -/
def parseStrBody : Nat → List Char → List Char → Option (List Char × List Char)
  | 0, _, _ => none
  | _ + 1, [], _ => none
  | fuel + 1, c :: rest, acc =>
    if c = '"' then some (acc.reverse, rest)
    else if c = '\\' then
      match rest with
      | [] => none
      | 'u' :: h1 :: h2 :: h3 :: h4 :: rest' =>
        match hexVal h1, hexVal h2, hexVal h3, hexVal h4 with
        | some a, some b, some c3, some d =>
          parseStrBody fuel rest' (Char.ofNat (((a * 16 + b) * 16 + c3) * 16 + d) :: acc)
        | _, _, _, _ => none
      | e :: rest' =>
        match escChar e with
        | some ec => parseStrBody fuel rest' (ec :: acc)
        | none => none
    else if c.toNat < 32 then none
    else parseStrBody fuel rest (c :: acc)

/-- A JSON number at the head of the input:
`-? ( 0 | [1-9][0-9]* ) ( . [0-9]+ )? ( [eE] [+-]? [0-9]+ )?`. -/
def parseJsonNumber (l : List Char) : Option (Rat × List Char) :=
  let sr : Bool × List Char := match l with
    | '-' :: r => (true, r)
    | _ => (false, l)
  let intDigits := sr.2.takeWhile Char.isDigit
  if intDigits = [] then none
  else if intDigits.length > 1 ∧ intDigits.headD '0' = '0' then none
  else
    let l2 := sr.2.drop intDigits.length
    let fr : Option (Rat × List Char) := match l2 with
      | '.' :: r =>
        let fd := r.takeWhile Char.isDigit
        if fd = [] then none
        else some ((digitsToNat fd : Rat) / ((10 : Rat) ^ fd.length), r.drop fd.length)
      | _ => some (0, l2)
    match fr with
    | none => none
    | some (fracv, l3) =>
      let base : Rat := (digitsToNat intDigits : Rat) + fracv
      let er : Option (Rat × List Char) := match l3 with
        | 'e' :: r | 'E' :: r =>
          let se : Bool × List Char := match r with
            | '+' :: r' => (false, r')
            | '-' :: r' => (true, r')
            | _ => (false, r)
          let ed := se.2.takeWhile Char.isDigit
          if ed = [] then none
          else
            let e10 : Rat := (10 : Rat) ^ digitsToNat ed
            some (if se.1 then base / e10 else base * e10, se.2.drop ed.length)
        | _ => some (base, l3)
      match er with
      | none => none
      | some (v, l4) => some (if sr.1 then -v else v, l4)

mutual

/-- One JSON value at the head of the input (leading whitespace allowed),
with the unconsumed remainder. -/
def parseVal : Nat → List Char → Option (Json × List Char)
  | 0, _ => none
  | fuel + 1, l =>
    match skipWs l with
    | [] => none
    | c :: rest =>
      if c = 'n' then
        if listStartsWith "ull".toList rest then some (.null, rest.drop 3) else none
      else if c = 't' then
        if listStartsWith "rue".toList rest then some (.bool true, rest.drop 3) else none
      else if c = 'f' then
        if listStartsWith "alse".toList rest then some (.bool false, rest.drop 4) else none
      else if c = '"' then
        match parseStrBody (fuel + 1) rest [] with
        | some (s, rest') => some (.str s, rest')
        | none => none
      else if c = '[' then
        match skipWs rest with
        | ']' :: rest' => some (.arr [], rest')
        | _ =>
          match parseElems fuel rest with
          | some (xs, rest') => some (.arr xs, rest')
          | none => none
      else if c = '\x7b' then
        match skipWs rest with
        | '\x7d' :: rest' => some (.obj [], rest')
        | _ =>
          match parseFields fuel rest with
          | some (fs, rest') => some (.obj fs, rest')
          | none => none
      else
        match parseJsonNumber (c :: rest) with
        | some (v, rest') => some (.num v, rest')
        | none => none

/-- The elements of a non-empty JSON array, consuming the closing `]`. -/
def parseElems : Nat → List Char → Option (List Json × List Char)
  | 0, _ => none
  | fuel + 1, l =>
    match parseVal fuel l with
    | none => none
    | some (v, rest) =>
      match skipWs rest with
      | ',' :: rest' =>
        match parseElems fuel rest' with
        | some (vs, rest'') => some (v :: vs, rest'')
        | none => none
      | ']' :: rest' => some ([v], rest')
      | _ => none

/-- The fields of a non-empty JSON object, consuming the closing brace. -/
def parseFields : Nat → List Char → Option (List (List Char × Json) × List Char)
  | 0, _ => none
  | fuel + 1, l =>
    match skipWs l with
    | '"' :: rest =>
      match parseStrBody (fuel + 1) rest [] with
      | none => none
      | some (k, rest1) =>
        match skipWs rest1 with
        | ':' :: rest2 =>
          match parseVal fuel rest2 with
          | none => none
          | some (v, rest3) =>
            match skipWs rest3 with
            | ',' :: rest4 =>
              match parseFields fuel rest4 with
              | some (fs, rest5) => some ((k, v) :: fs, rest5)
              | none => none
            | '\x7d' :: rest4 => some ([(k, v)], rest4)
            | _ => none
        | _ => none
    | _ => none

end

/-- `json.loads` on the whole text: one value plus only trailing
whitespace.  (Python additionally accepts the non-standard NaN/Infinity
literals, which none of the texts considered here contain.) -/
def json_loads (l : List Char) : Option Json :=
  match parseVal (2 * l.length + 2) l with
  | some (v, rest) => if skipWs rest = [] then some v else none
  | none => none

/-- `re.search(r"\x7b.*\x7d", raw, re.DOTALL)`: with DOTALL and a greedy
`.*`, the match — when one exists — runs from the first opening brace to
the last closing brace at or after it. -/
def braceExtract (cs : List Char) : Option (List Char) :=
  match cs.dropWhile (fun c => !(c == '\x7b')) with
  | [] => none
  | o :: rest =>
    if rest.any (fun c => c == '\x7d') then
      some (o :: (rest.reverse.dropWhile (fun c => !(c == '\x7d'))).reverse)
    else none

/-- The `off_topic_message` of `DEFAULT_POLICY["fallback"]`, used as the
degraded answer text. -/
def off_topic_message : List Char :=
  ("I don\x27t have enough information in the available documents " ++
    "to answer this question confidently.").toList

/-- The degraded fallback object built inline at lines 699-702: the
off-topic fallback message, empty quotes, reasoning outline and used
documents, no policy flags, null disclaimer. -/
def degradedFallback : Json :=
  .obj [("answer_text".toList, .str off_topic_message),
        ("quotes".toList, .arr []),
        ("reasoning_outline".toList, .arr []),
        ("used_documents".toList, .arr []),
        ("policy_flags".toList, .arr []),
        ("disclaimer".toList, .null)]

/-- The answer-parsing step of `RAGAgent.query` (lines 694-702):
`json.loads(raw)` under `try`; on `JSONDecodeError`, search for the
brace-delimited substring; if found, `json.loads` it — this second call is
NOT guarded, so its decode error propagates out of the handler
(`Except.error`); only when no substring exists is the degraded fallback
object synthesized. -/
def parseGenerated (raw : String) : Except Unit Json :=
  match json_loads raw.toList with
  | some v => .ok v
  | none =>
    match braceExtract raw.toList with
    | some s =>
      match json_loads s with
      | some v => .ok v
      | none => .error ()
    | none => .ok degradedFallback

/-- C4 counterexample: on the raw text `x{y}` the strict decode fails, the
brace-delimited substring `{y}` is found, its decode also fails, and the
parsing step raises (propagates the decode error) instead of returning the
degraded fallback — the step is not total and not error-free. -/
theorem c4_counterexample :
    json_loads ("x\x7by\x7d".toList) = none ∧
    braceExtract ("x\x7by\x7d".toList) = some ("\x7by\x7d".toList) ∧
    parseGenerated "x\x7by\x7d" = Except.error () :=
  ⟨rfl, rfl, rfl⟩

/-- C4 (amended): the parsing step raises exactly when strict decoding
fails AND a brace-delimited substring exists whose decoding also fails; and
the degraded fallback object (off-topic fallback message, empty
quotes/reasoning/used documents, no policy flags) is returned exactly when
strict decoding fails and no brace-delimited substring exists.  In every
other case a decoded value is returned. -/
theorem c4_parse_totality (raw : String) :
    ((parseGenerated raw).isOk = false ↔
      json_loads raw.toList = none ∧
      ∃ s, braceExtract raw.toList = some s ∧ json_loads s = none) ∧
    (json_loads raw.toList = none ∧ braceExtract raw.toList = none →
      parseGenerated raw = Except.ok degradedFallback) := by
  unfold parseGenerated
  cases h1 : json_loads raw.toList with
  | some v => simp [h1, Except.isOk, Except.toBool]
  | none =>
    cases h2 : braceExtract raw.toList with
    | none => simp [h2, Except.isOk, Except.toBool]
    | some s =>
      cases h3 : json_loads s with
      | some v => simp [h2, h3, Except.isOk, Except.toBool]
      | none => simp [h2, h3, Except.isOk, Except.toBool]
